import Mathlib

/-!
Shallow embedding of `src/discourse.py` (a Python client library for the
Discourse forum REST API) and proofs about its remote-object model.

Modelling conventions:
* Python dictionaries holding JSON data become association lists
  (`Dict := List (String × Value)`) with Python's assignment semantics
  (replace-in-place if the key exists, else append).
* The HTTP layer (`Discourse.request` plus the `requests` library) is an
  external collaborator; it is modelled as an oracle
  `Transport : Request → Except PErr Dict` supplied to every operation.
  Every operation returns the list of requests it issued, the final object
  state (Python mutates `self` in place, so state survives an exception),
  and the propagated exception, if any.
* Property `set_cast` / `type` conversion functions are applied by the
  generated property accessors before `ForumObject.set` / after
  `ForumObject.get` run; the claims quantify over the already-converted
  value, so `PropSpec` records only the name and the writable flag.
-/

/-- JSON-ish values stored in a `ForumObject`'s backing dictionary `_d`.
`vPerms` represents the `group_permissions` sub-list of a `Category`:
a list of `{'group_name': ..., 'permission_type': ...}` entries. -/
inductive Value where
  | vNull : Value
  | vInt : Int → Value
  | vStr : String → Value
  | vBool : Bool → Value
  | vPerms : List (String × Int) → Value
deriving DecidableEq, Repr

/-- A Python dict from field names to values (insertion ordered). -/
abbrev Dict := List (String × Value)

/-- First-match lookup, `d[k]` / `d.get(k)`. -/
def Dict.lookupF (d : Dict) (k : String) : Option Value :=
  match d with
  | [] => none
  | (k', v) :: rest => if k' = k then some v else Dict.lookupF rest k

/-- Python `k in d`. -/
def Dict.hasKey (d : Dict) (k : String) : Bool :=
  (d.lookupF k).isSome

/-- Python `d[k] = v`: replace the value in place if present, else append. -/
def Dict.insertF (d : Dict) (k : String) (v : Value) : Dict :=
  match d with
  | [] => [(k, v)]
  | (k', v') :: rest =>
    if k' = k then (k', v) :: rest else (k', v') :: Dict.insertF rest k v

/-- Python `d.update(m)`: assign each pair of `m` into `d` in order. -/
def Dict.updateF (d : Dict) (m : Dict) : Dict :=
  m.foldl (fun acc kv => acc.insertF kv.1 kv.2) d

/-- Exceptions that can propagate out of the embedded operations. -/
inductive PErr where
  | httpError : PErr
  | apiError : PErr
  | keyError : PErr
  | attributeError : PErr
  | valueError : PErr
  | typeError : PErr
deriving DecidableEq, Repr

/-- HTTP methods, the first element of an endpoint tuple. -/
inductive Method where
  | GET | PUT | POST | DELETE
deriving DecidableEq, Repr

/-- An endpoint tuple `(request function, url format string, member)`.
`urlParams` is the list of `{name}` placeholders in the format string. -/
structure Endpoint where
  method : Method
  urlParams : List String
  responseKey : Option String
deriving DecidableEq, Repr

/-- One HTTP request as issued through `Discourse.request`: the endpoint it
went to and the `params` mapping (`none` when the Python call passed
`params=None`). -/
structure Request where
  ep : Endpoint
  params : Option Dict
deriving DecidableEq, Repr

/-- The external HTTP collaborator: a response (the JSON mapping, already
unwrapped to the endpoint's response key) or a raised error per request. -/
abbrev Transport := Request → Except PErr Dict

/-- The endpoint constants of the source file. -/
def USER_GET1 : Endpoint := ⟨Method.GET, ["username"], some "user"⟩

def USER_GET2 : Endpoint := ⟨Method.GET, ["id"], none⟩

def USER_PUT : Endpoint := ⟨Method.PUT, ["username"], some "user"⟩

def GROUP_GET : Endpoint := ⟨Method.GET, ["name"], some "basic_group"⟩

def GROUP_PUT : Endpoint := ⟨Method.PUT, ["id"], some "basic_group"⟩

def CATEGORY_GET : Endpoint := ⟨Method.GET, ["id_or_slug"], some "category"⟩

def CATEGORY_PUT : Endpoint := ⟨Method.PUT, ["id"], some "category"⟩

/-- The mutable state of one `ForumObject` instance: the backing dictionary
`_d`, and the `suspended` and `has_changes` flags. -/
structure FOState where
  d : Dict
  suspended : Bool
  has_changes : Bool
deriving DecidableEq, Repr

/-- Result of running one (possibly composite) operation: the requests it
issued in order, the final state of the object (mutations before an
exception survive), and the exception, if one propagated. -/
structure OpResult where
  log : List Request
  st : FOState
  err : Option PErr
deriving DecidableEq, Repr

/-- The per-entity-type specialization points of `ForumObject`: the
writable property list created by `AddProperties`, the `commit_all_fields`
flag, the two endpoint hooks, and whether `get_state` is the `Category`
override that flattens `group_permissions` (Python resolves this by
inheritance; we record it as a flag). -/
structure ObjType where
  writable : List String
  commitAllFields : Bool
  getEp : Endpoint
  putEp : Endpoint
  permOverlay : Bool
deriving DecidableEq, Repr

/-- The tail of `ForumObject.request`: format the url (raising `KeyError`
if a placeholder is missing from `_d`) and perform the HTTP call. The url
formatting happens before the call, so on `KeyError` no request is issued. -/
def rawRequest (t : Transport) (d : Dict) (ep : Endpoint) (params : Option Dict) :
    List Request × Except PErr Dict :=
  if ep.urlParams.all (fun p => d.hasKey p) then
    ([⟨ep, params⟩], t ⟨ep, params⟩)
  else
    ([], Except.error PErr.keyError)

/-- `ForumObject.update`: `self._d = self.request(self.get_endpoint())`. -/
def FO.update (ty : ObjType) (t : Transport) (st : FOState) : OpResult :=
  match rawRequest t st.d ty.getEp none with
  | (log, Except.ok resp) => ⟨log, { st with d := resp }, none⟩
  | (log, Except.error e) => ⟨log, st, some e⟩

/-- `ForumObject.request`: when `params` is truthy and some url placeholder
is missing from `_d`, first `update()`; then format the url and call. -/
def FO.request (ty : ObjType) (t : Transport) (st : FOState) (ep : Endpoint)
    (params : Option Dict) : List Request × FOState × Except PErr Dict :=
  let needUpd : Bool :=
    match params with
    | none => false
    | some ps => !ps.isEmpty && ep.urlParams.any (fun p => !(st.d.hasKey p))
  if needUpd then
    let r := FO.update ty t st
    match r.err with
    | some e => (r.log, r.st, Except.error e)
    | none =>
      let (log2, res) := rawRequest t r.st.d ep params
      (r.log ++ log2, r.st, res)
  else
    let (log2, res) := rawRequest t st.d ep params
    (log2, st, res)

/-- `ForumObject.get_state`: the writable properties present in `_d`, in
`get_writable()` order. -/
def FO.get_state (ty : ObjType) (d : Dict) : Dict :=
  ty.writable.filterMap (fun k => (d.lookupF k).map (fun v => (k, v)))

/-- `Category.get_state`: the base state plus one synthetic
`permissions[<group>]` key per entry of the `group_permissions` sub-list
(skipped when the sub-list is absent, empty, or not a list). -/
def Cat.get_state (ty : ObjType) (d : Dict) : Dict :=
  let base := FO.get_state ty d
  match d.lookupF "group_permissions" with
  | some (Value.vPerms gp) =>
    if gp.isEmpty then base
    else gp.foldl
      (fun acc x => acc.insertF ("permissions[" ++ x.1 ++ "]") (Value.vInt x.2))
      base
  | _ => base

/-- The `get_state` that Python's dynamic dispatch selects for this entity
type. -/
def stateOf (ty : ObjType) (d : Dict) : Dict :=
  if ty.permOverlay then Cat.get_state ty d else FO.get_state ty d

/-- `ForumObject.commit`: default `changes` to `get_state()` when falsy
(Python's `if not changes` catches both `None` and `{}`), send them to the
put endpoint, merge the response into `_d`, clear `has_changes`. On an
exception nothing after the raise runs, so `_d` and `has_changes` keep
their values. -/
def FO.commit (ty : ObjType) (t : Transport) (st : FOState)
    (changes : Option Dict) : OpResult :=
  let chg := match changes with
    | none => stateOf ty st.d
    | some c => if c.isEmpty then stateOf ty st.d else c
  match FO.request ty t st ty.putEp (some chg) with
  | (log, st', Except.ok resp) =>
    ⟨log, { st' with d := st'.d.updateF resp, has_changes := false }, none⟩
  | (log, st', Except.error e) => ⟨log, st', some e⟩

/-- `ForumObject.suspend`. -/
def FO.suspend (st : FOState) : FOState := { st with suspended := true }

/-- `ForumObject.resume`: clear `suspended`, then commit iff `has_changes`. -/
def FO.resume (ty : ObjType) (t : Transport) (st : FOState) : OpResult :=
  let st1 := { st with suspended := false }
  if st1.has_changes then FO.commit ty t st1 none
  else ⟨[], st1, none⟩

/-- `ForumObject.get`: fetch via `update()` when the key is absent, then
read `_d[key]` (raising `KeyError` if still absent). -/
def FO.get (ty : ObjType) (t : Transport) (st : FOState) (key : String) :
    List Request × FOState × Except PErr Value :=
  if st.d.hasKey key then
    ([], st, match st.d.lookupF key with
      | some v => Except.ok v
      | none => Except.error PErr.keyError)
  else
    let r := FO.update ty t st
    match r.err with
    | some e => (r.log, r.st, Except.error e)
    | none => (r.log, r.st, match r.st.d.lookupF key with
      | some v => Except.ok v
      | none => Except.error PErr.keyError)

/-- `ForumObject.set`: `has_changes |= (key absent or value differs)`;
store the value; when not suspended and `has_changes`, commit — the single
changed field if `commit_all_fields()` is false, else the full state. -/
def FO.set (ty : ObjType) (t : Transport) (st : FOState) (key : String)
    (v : Value) : OpResult :=
  let hc := st.has_changes ||
    decide (¬ st.d.hasKey key ∨ st.d.lookupF key ≠ some v)
  let st1 : FOState := { st with has_changes := hc, d := st.d.insertF key v }
  if !st1.suspended && st1.has_changes then
    if !ty.commitAllFields then FO.commit ty t st1 (some [(key, v)])
    else FO.commit ty t st1 none
  else ⟨[], st1, none⟩

/-- Run a list of `set` calls in order; an exception skips the rest but
keeps the state reached so far (Python semantics). -/
def applySets (ty : ObjType) (t : Transport) (st : FOState) :
    List (String × Value) → OpResult
  | [] => ⟨[], st, none⟩
  | (k, v) :: rest =>
    let r := FO.set ty t st k v
    match r.err with
    | some e => ⟨r.log, r.st, some e⟩
    | none =>
      let r2 := applySets ty t r.st rest
      ⟨r.log ++ r2.log, r2.st, r2.err⟩

/-- Assign a list of key/value pairs into a dict in order. -/
def insertAll (d : Dict) (l : List (String × Value)) : Dict :=
  l.foldl (fun acc kv => acc.insertF kv.1 kv.2) d

/-- One entry of an `AddProperties` table: the property name and its
writable flag (the `type`/`set_cast` conversion functions run inside the
generated accessors, outside the state model; claims quantify over the
converted value). -/
structure PropSpec where
  name : String
  writable : Bool
deriving DecidableEq, Repr

/-- The `get_writable` class method created by `AddProperties`: the names
of the writable entries, in table order. -/
def get_writable (props : List PropSpec) : List String :=
  (props.filter (fun p => p.writable)).map (fun p => p.name)

/-- The property that `setattr` leaves in effect for `name`: the last
table entry with that name (later `setattr` calls overwrite earlier ones). -/
def effectiveProp (props : List PropSpec) (name : String) : Option PropSpec :=
  props.reverse.find? (fun p => p.name = name)

/-- A schema-routed property write. A writable property's setter calls
`self.set(name, set_cast(value))`; a read-only property was created
without a setter, so Python raises `AttributeError` before anything runs.
A name with no property at all becomes a plain instance attribute,
touching neither `_d` nor the network. -/
def setProp (props : List PropSpec) (ty : ObjType) (t : Transport)
    (st : FOState) (name : String) (v : Value) : OpResult :=
  match effectiveProp props name with
  | none => ⟨[], st, none⟩
  | some p =>
    if p.writable then FO.set ty t st name v
    else ⟨[], st, some PErr.attributeError⟩

/-- The `AddProperties(User, ...)` table. -/
def userProps : List PropSpec :=
  [⟨"id", false⟩, ⟨"avatar_template", false⟩, ⟨"last_posted_at", false⟩,
   ⟨"last_seen_at", false⟩, ⟨"created_at", false⟩, ⟨"username", true⟩,
   ⟨"name", true⟩, ⟨"email", true⟩, ⟨"bio_raw", true⟩,
   ⟨"bio_cooked", false⟩, ⟨"bio_excerpt", false⟩, ⟨"website_name", true⟩,
   ⟨"profile_background", true⟩, ⟨"card_background", true⟩,
   ⟨"location", true⟩, ⟨"trust_level", true⟩, ⟨"moderator", true⟩,
   ⟨"admin", true⟩, ⟨"title", true⟩]

/-- The `AddProperties(Group, ...)` table. -/
def groupProps : List PropSpec :=
  [⟨"id", false⟩, ⟨"automatic", false⟩, ⟨"name", true⟩,
   ⟨"user_count", false⟩, ⟨"alias_level", true⟩, ⟨"visible", true⟩,
   ⟨"automatic_membership_email_domains", true⟩,
   ⟨"automatic_membership_retroactive", true⟩, ⟨"primary_group", true⟩,
   ⟨"title", true⟩, ⟨"grant_trust_level", true⟩, ⟨"incoming_email", true⟩,
   ⟨"has_messages", false⟩, ⟨"is_member", false⟩, ⟨"mentionable", false⟩,
   ⟨"flair_url", true⟩, ⟨"flair_bg_color", true⟩]

/-- The `AddProperties(Category, ...)` table. -/
def categoryProps : List PropSpec :=
  [⟨"id", false⟩, ⟨"name", true⟩, ⟨"color", true⟩, ⟨"text_color", true⟩,
   ⟨"slug", true⟩, ⟨"topic_count", false⟩, ⟨"post_count", false⟩,
   ⟨"position", true⟩, ⟨"description_text", false⟩,
   ⟨"description", false⟩, ⟨"topic_url", true⟩, ⟨"logo_url", true⟩,
   ⟨"background_url", true⟩, ⟨"read_restricted", true⟩,
   ⟨"permission", true⟩, ⟨"can_edit", false⟩, ⟨"topic_template", true⟩,
   ⟨"has_children", false⟩, ⟨"auto_close_hours", true⟩,
   ⟨"auto_close_based_on_last_post", true⟩, ⟨"email_in", true⟩,
   ⟨"email_in_allow_strangers", true⟩, ⟨"suppress_from_homepage", true⟩,
   ⟨"can_delete", false⟩, ⟨"cannot_delete_reason", false⟩,
   ⟨"is_special", false⟩, ⟨"allow_badges", true⟩,
   ⟨"custom_fields", false⟩]

/-- `User` wiring: single-field commits, no permission overlay. -/
def userType : ObjType :=
  ⟨get_writable userProps, false, USER_GET1, USER_PUT, false⟩

/-- `Group` wiring: `commit_all_fields` is true. -/
def groupType : ObjType :=
  ⟨get_writable groupProps, true, GROUP_GET, GROUP_PUT, false⟩

/-- `Category` wiring: `commit_all_fields` is true, `get_state` flattens
`group_permissions`. -/
def categoryType : ObjType :=
  ⟨get_writable categoryProps, true, CATEGORY_GET, CATEGORY_PUT, true⟩

/-- Replace the value of the first entry with the given group name
(`find` returns the first match and `set_permission` mutates it). -/
def updPerm : List (String × Int) → String → Int → List (String × Int)
  | [], _, _ => []
  | x :: xs, k, v =>
    if x.1 = k then (x.1, v) :: xs else x :: updPerm xs k v

/-- `Category.get_permission`: the first matching entry's
`permission_type`, else `Permission.NONE = 0`. Modelled on the cached
sub-list (the claims supply states where it is present). -/
def Cat.get_permission (st : FOState) (key : String) : Int :=
  match st.d.lookupF "group_permissions" with
  | some (Value.vPerms gp) =>
    match gp.find? (fun x => x.1 = key) with
    | some p => p.2
    | none => 0
  | _ => 0

/-- `Category.set_permission`: mutate the first matching entry of the
cached `group_permissions` list in place, or append a new entry; then
commit iff not suspended. `self.get('group_permissions')` fetches when
the key is absent from `_d`; the absent case is routed through `FO.get`. -/
def Cat.set_permission (ty : ObjType) (t : Transport) (st : FOState)
    (key : String) (value : Int) : OpResult :=
  match FO.get ty t st "group_permissions" with
  | (log, st', Except.error e) => ⟨log, st', some e⟩
  | (log, st', Except.ok gv) =>
    match gv with
    | Value.vPerms gp =>
      let gp' := if (gp.find? (fun x => x.1 = key)).isSome
        then updPerm gp key value
        else gp ++ [(key, value)]
      let st1 : FOState :=
        { st' with d := st'.d.insertF "group_permissions" (Value.vPerms gp') }
      if st1.suspended then ⟨log, st1, none⟩
      else
        let r := FO.commit ty t st1 none
        ⟨log ++ r.log, r.st, r.err⟩
    | _ => ⟨log, st', some PErr.valueError⟩

/-- The suspend/set.../resume scenario: `suspend()`, then the listed `set`
calls, then `resume()`. -/
def runSuspendSetsResume (ty : ObjType) (t : Transport) (st0 : FOState)
    (sets : List (String × Value)) : OpResult :=
  let mid := applySets ty t (FO.suspend st0) sets
  match mid.err with
  | some e => ⟨mid.log, mid.st, some e⟩
  | none =>
    let r := FO.resume ty t mid.st
    ⟨mid.log ++ r.log, r.st, r.err⟩

/-- The `with` statement over a `ForumObject`: `__enter__` suspends, the
body runs its `set` calls — all of them, or only the first `k` when it
raises after `k` of them (`raiseAt = some k`) — and `__exit__` runs
`resume()` on every exit path; since `__exit__` returns a falsy value the
body's exception then propagates. The boolean records whether an
exception propagated out of the whole statement. -/
def runWith (ty : ObjType) (t : Transport) (st0 : FOState)
    (sets : List (String × Value)) (raiseAt : Option Nat) : OpResult × Bool :=
  let body := match raiseAt with
    | none => sets
    | some k => sets.take k
  let mid := applySets ty t (FO.suspend st0) body
  let r := FO.resume ty t mid.st
  (⟨mid.log ++ r.log, r.st, r.err⟩, raiseAt.isSome || mid.err.isSome)

/-- Requests issued by a `UserList`/`MemberList` (members are identified
here by their stable key; `add` sends one comma-joined `usernames` batch,
`remove` sends one numeric `user_id` per member). `removeUserReq` is the
remove call of `replace_all`, which passes the raw `User` object as
`user_id` instead of converting it to a numeric id. -/
inductive MLReq where
  | fetchAt : Nat → MLReq
  | fetchLimit0 : MLReq
  | fetchAllReq : MLReq
  | addReq : List Nat → MLReq
  | removeReq : Nat → MLReq
  | removeUserReq : Nat → MLReq
deriving DecidableEq, Repr

/-- The server side of the member-list endpoints: the window returned for
`{'offset': i}` together with `meta.total`, the total returned for
`{'limit': 0}`, and the unpaged list returned by `UserList.update`. -/
structure MLOracle where
  window : Nat → List Nat × Nat
  total0 : Nat
  allList : List Nat

/-- The state of one `MemberList`: the cached window `_list` (Python
`None` becomes `none`), its `__offset`, and the cached `__count`. -/
structure MLState where
  list : Option (List Nat)
  offset : Nat
  count : Option Nat
deriving DecidableEq, Repr

/-- `MemberList.__len__`: fetch `{'limit': 0}` solely for `meta.total`
when `__count` is unset, cache it, return it. -/
def ML.len (o : MLOracle) (st : MLState) : List MLReq × MLState × Nat :=
  match st.count with
  | some c => ([], st, c)
  | none => ([MLReq.fetchLimit0], { st with count := some o.total0 }, o.total0)

/-- `MemberList.__getitem__`: refetch at `{'offset': i}` when no window is
cached (Python `not list` is also true of an empty window) or `i` falls
outside `[offset, offset + len(list))`, replacing the window, its offset
and the count; then index the window at `i - offset`. -/
def ML.getitem (o : MLOracle) (st : MLState) (i : Nat) :
    List MLReq × MLState × Option Nat :=
  let outside := match st.list with
    | none => true
    | some l => l.isEmpty || decide (i < st.offset) ||
        decide (i ≥ l.length + st.offset)
  if outside then
    let (members, total) := o.window i
    let st' : MLState := { list := some members, offset := i, count := some total }
    ([MLReq.fetchAt i], st', members.get? (i - st'.offset))
  else
    ([], st, (st.list.getD []).get? (i - st.offset))

/-- `UserList.add`: one batched add request, then invalidate the window. -/
def ML.add (st : MLState) (members : List Nat) : List MLReq × MLState :=
  ([MLReq.addReq members], { st with list := none })

/-- `UserList.remove`: one remove request per member, then invalidate the
window. -/
def ML.remove (st : MLState) (members : List Nat) : List MLReq × MLState :=
  (members.map MLReq.removeReq, { st with list := none })

/-- A Python `set.add` on a list-backed model of a set: no-op when the
element is present, else keep it. -/
def pyInsert (l : List Nat) (x : Nat) : List Nat :=
  if x ∈ l then l else l ++ [x]

/-- The Python set built from a list (`set()` plus `add` in order). -/
def pySetL (l : List Nat) : List Nat :=
  l.foldl pyInsert []

/-- Python `a.difference(b)` over the list-backed sets. -/
def pyDiff (a b : List Nat) : List Nat :=
  a.filter (fun x => decide (x ∉ b))

/-- `UserList.replace_all` (discourse.py:427-444). The desired members
are normalized to `User` objects; the current list is fetched first when
none is cached (Python `not self._list` is also true of an empty one).
`toAdd` and `toRemove` are Python sets of `User` objects, so the
`",".join(toAdd.difference(toRemove))` of line 440 raises `TypeError`
whenever there is anything to add — before any add or remove request is
issued and before the `_list = members` assignment, leaving the object
with the list it already had (the freshly fetched one if the fetch ran).
Only when there is nothing to add does the join yield the empty string:
one batched add call with an empty `usernames` value is then issued,
followed by one remove call per element of `cmdRemove` — passing the raw
member object as `user_id` rather than a numeric id — and `_list` is set
to the desired members directly rather than invalidated. -/
def UL.replace_all (o : MLOracle) (st : MLState) (members : List Nat) :
    List MLReq × MLState × Option PErr :=
  let fetched : List MLReq × MLState × List Nat :=
    match st.list with
    | none =>
      ([MLReq.fetchAllReq], { st with list := some o.allList }, o.allList)
    | some l =>
      if l.isEmpty then
        ([MLReq.fetchAllReq], { st with list := some o.allList }, o.allList)
      else ([], st, l)
  let preLog := fetched.1
  let st1 := fetched.2.1
  let current := fetched.2.2
  let toAdd := pySetL members
  let toRemove := pySetL current
  let cmdRemove := pyDiff toRemove toAdd
  let cmdAdd := pyDiff toAdd toRemove
  if cmdAdd.isEmpty then
    (preLog ++ MLReq.addReq [] :: cmdRemove.map MLReq.removeUserReq,
     { st1 with list := some members }, none)
  else (preLog, st1, some PErr.typeError)

/-- The character for one decimal digit (`digitChar d` for `d ≤ 9`). -/
def digitChar (d : Nat) : Char := Char.ofNat (48 + d)

/-- Zero-padded 2-digit field, as `strftime` prints `%m %d %H %M %S`. -/
def pad2 (n : Nat) : List Char := [digitChar (n / 10 % 10), digitChar (n % 10)]

/-- 4-digit year, as `strftime` prints `%Y` (identical to the unpadded
form for the years `1000-9999` that the round-trip claim ranges over). -/
def pad4 (n : Nat) : List Char :=
  [digitChar (n / 1000 % 10), digitChar (n / 100 % 10),
   digitChar (n / 10 % 10), digitChar (n % 10)]

/-- 6-digit microsecond field, as `strftime` prints `%f`. -/
def pad6 (n : Nat) : List Char :=
  [digitChar (n / 100000 % 10), digitChar (n / 10000 % 10),
   digitChar (n / 1000 % 10), digitChar (n / 100 % 10),
   digitChar (n / 10 % 10), digitChar (n % 10)]

/-- A `datetime.datetime` as produced by `strptime(s, TIME_FORMAT)`. -/
structure PyDateTime where
  year : Nat
  month : Nat
  day : Nat
  hour : Nat
  minute : Nat
  second : Nat
  microsecond : Nat
deriving DecidableEq, Repr

/-- Decimal digit test on a character. -/
def isDigitC (c : Char) : Bool := 48 ≤ c.toNat && c.toNat ≤ 57

/-- CPython `_strptime` matches `%Y` with exactly four digits. -/
def parseY : List Char → Option (Nat × List Char)
  | a :: b :: c :: d :: rest =>
    if isDigitC a && isDigitC b && isDigitC c && isDigitC d then
      some ((a.toNat - 48) * 1000 + (b.toNat - 48) * 100 +
        (c.toNat - 48) * 10 + (d.toNat - 48), rest)
    else none
  | _ => none

/-- `%m`, matched by the ordered alternation `1[0-2]|0[1-9]|[1-9]`. -/
def parseMN : List Char → Option (Nat × List Char)
  | a :: b :: rest =>
    if a = '1' && '0' ≤ b && b ≤ '2' then some (10 + (b.toNat - 48), rest)
    else if a = '0' && '1' ≤ b && b ≤ '9' then some (b.toNat - 48, rest)
    else if '1' ≤ a && a ≤ '9' then some (a.toNat - 48, b :: rest)
    else none
  | [a] => if '1' ≤ a && a ≤ '9' then some (a.toNat - 48, []) else none
  | [] => none

/-- `%d`, matched by `3[01]|[12]\d|0[1-9]|[1-9]`. -/
def parseD : List Char → Option (Nat × List Char)
  | a :: b :: rest =>
    if a = '3' && '0' ≤ b && b ≤ '1' then some (30 + (b.toNat - 48), rest)
    else if ('1' ≤ a && a ≤ '2') && isDigitC b then
      some ((a.toNat - 48) * 10 + (b.toNat - 48), rest)
    else if a = '0' && '1' ≤ b && b ≤ '9' then some (b.toNat - 48, rest)
    else if '1' ≤ a && a ≤ '9' then some (a.toNat - 48, b :: rest)
    else none
  | [a] => if '1' ≤ a && a ≤ '9' then some (a.toNat - 48, []) else none
  | [] => none

/-- `%H`, matched by `2[0-3]|[0-1]\d|\d`. -/
def parseH : List Char → Option (Nat × List Char)
  | a :: b :: rest =>
    if a = '2' && '0' ≤ b && b ≤ '3' then some (20 + (b.toNat - 48), rest)
    else if ('0' ≤ a && a ≤ '1') && isDigitC b then
      some ((a.toNat - 48) * 10 + (b.toNat - 48), rest)
    else if isDigitC a then some (a.toNat - 48, b :: rest)
    else none
  | [a] => if isDigitC a then some (a.toNat - 48, []) else none
  | [] => none

/-- `%M`, matched by `[0-5]\d|\d`. -/
def parseMin : List Char → Option (Nat × List Char)
  | a :: b :: rest =>
    if ('0' ≤ a && a ≤ '5') && isDigitC b then
      some ((a.toNat - 48) * 10 + (b.toNat - 48), rest)
    else if isDigitC a then some (a.toNat - 48, b :: rest)
    else none
  | [a] => if isDigitC a then some (a.toNat - 48, []) else none
  | [] => none

/-- `%S`, matched by `6[0-1]|[0-5]\d|\d` (60 and 61 pass the regex but are
rejected later by the `datetime` constructor). -/
def parseS : List Char → Option (Nat × List Char)
  | a :: b :: rest =>
    if a = '6' && '0' ≤ b && b ≤ '1' then some (60 + (b.toNat - 48), rest)
    else if ('0' ≤ a && a ≤ '5') && isDigitC b then
      some ((a.toNat - 48) * 10 + (b.toNat - 48), rest)
    else if isDigitC a then some (a.toNat - 48, b :: rest)
    else none
  | [a] => if isDigitC a then some (a.toNat - 48, []) else none
  | [] => none

/-- Up to `n` leading decimal digits, greedily. -/
def takeDigits : Nat → List Char → List Nat × List Char
  | 0, cs => ([], cs)
  | _ + 1, [] => ([], [])
  | n + 1, c :: cs =>
    if isDigitC c then
      let (ds, rest) := takeDigits n cs
      ((c.toNat - 48) :: ds, rest)
    else ([], c :: cs)

/-- CPython turns the matched `%f` digits into microseconds by
right-padding them with zeros to six digits. -/
def fracVal (ds : List Nat) : Nat :=
  (ds.foldl (fun a d => a * 10 + d) 0) * 10 ^ (6 - ds.length)

/-- `%f`, matched by `[0-9]{1,6}` greedily. -/
def parseF (cs : List Char) : Option (Nat × List Char) :=
  match takeDigits 6 cs with
  | ([], _) => none
  | (ds, rest) => some (fracVal ds, rest)

/-- Match one literal character. -/
def expectC (c : Char) : List Char → Option (List Char)
  | [] => none
  | x :: rest => if x = c then some rest else none

/-- Leap years as `datetime` computes them. -/
def isLeap (y : Nat) : Bool := (y % 4 = 0 && y % 100 ≠ 0) || y % 400 = 0

/-- Days in a month as validated by the `datetime` constructor. -/
def daysInMonth (y mo : Nat) : Nat :=
  if mo = 2 then (if isLeap y then 29 else 28)
  else if mo = 4 || mo = 6 || mo = 9 || mo = 11 then 30
  else 31

/-- `strptime(s, "%Y-%m-%dT%H:%M:%S.%fZ")` on a nonempty string: the regex
match (which must consume the whole string) followed by the `datetime`
constructor's range checks. -/
def parseTs (cs : List Char) : Option PyDateTime :=
  (parseY cs).bind fun yc =>
  (expectC '-' yc.2).bind fun cs1 =>
  (parseMN cs1).bind fun moc =>
  (expectC '-' moc.2).bind fun cs2 =>
  (parseD cs2).bind fun dc =>
  (expectC 'T' dc.2).bind fun cs3 =>
  (parseH cs3).bind fun hc =>
  (expectC ':' hc.2).bind fun cs4 =>
  (parseMin cs4).bind fun mic =>
  (expectC ':' mic.2).bind fun cs5 =>
  (parseS cs5).bind fun sc =>
  (expectC '.' sc.2).bind fun cs6 =>
  (parseF cs6).bind fun usc =>
  (expectC 'Z' usc.2).bind fun cs7 =>
  if cs7.isEmpty && decide (1 <= yc.1) &&
      decide (dc.1 <= daysInMonth yc.1 moc.1) && decide (sc.1 <= 59) then
    some ⟨yc.1, moc.1, dc.1, hc.1, mic.1, sc.1, usc.1⟩
  else none

/-- `str_to_time`: `None` for a falsy string, else `strptime` (which
raises `ValueError` on anything the pattern rejects). -/
def str_to_time (s : String) : Except PErr (Option PyDateTime) :=
  if s.toList.isEmpty then Except.ok none
  else
    match parseTs s.toList with
    | some dt => Except.ok (some dt)
    | none => Except.error PErr.valueError

/-- The characters `strftime(TIME_FORMAT)` prints for a datetime. -/
def tsChars (dt : PyDateTime) : List Char :=
  pad4 dt.year ++ ('-' :: (pad2 dt.month ++ ('-' :: (pad2 dt.day ++ ('T'
    :: (pad2 dt.hour ++ (':' :: (pad2 dt.minute ++ (':' :: (pad2 dt.second
    ++ ('.' :: (pad6 dt.microsecond ++ ['Z']))))))))))))

/-- `time_to_str`: `None` for `None` (the only falsy datetime value),
else `strftime(TIME_FORMAT)`. The module is Python 2
(`urllib.urlencode`, `dict.iteritems` at discourse.py:56-57), and
CPython 2's `wrap_strftime` raises `ValueError` for any year before
1900, so formatting such a datetime fails. -/
def time_to_str : Option PyDateTime → Except PErr (Option String)
  | none => Except.ok none
  | some dt =>
    if dt.year < 1900 then Except.error PErr.valueError
    else Except.ok (some (String.mk (tsChars dt)))

/-- The canonical timestamp string with the given field values: 4-digit
year, 2-digit zero-padded month, day, hour, minute and second, 6-digit
fractional-second field, with the literal `-`, `T`, `:`, `.`, `Z`
separators of `TIME_FORMAT`. -/
def canonicalTs (y mo d h mi s us : Nat) : String :=
  String.mk (tsChars ⟨y, mo, d, h, mi, s, us⟩)

theorem lookupF_insertF_self (d : Dict) (k : String) (v : Value) :
    (d.insertF k v).lookupF k = some v := by
  induction d with
  | nil => simp [Dict.insertF, Dict.lookupF]
  | cons kv rest ih =>
    obtain ⟨k', v'⟩ := kv
    by_cases h : k' = k
    · simp [Dict.insertF, Dict.lookupF, h]
    · simp [Dict.insertF, Dict.lookupF, h, ih]

theorem lookupF_insertF_ne (d : Dict) (k k' : String) (v : Value)
    (h : k' ≠ k) : (d.insertF k v).lookupF k' = d.lookupF k' := by
  have h' : ¬ k = k' := fun hh => h hh.symm
  induction d with
  | nil => simp [Dict.insertF, Dict.lookupF, h']
  | cons kv rest ih =>
    obtain ⟨k0, v0⟩ := kv
    by_cases h0 : k0 = k
    · subst h0
      simp [Dict.insertF, Dict.lookupF, h']
    · simp only [Dict.insertF, if_neg h0, Dict.lookupF]
      by_cases h1 : k0 = k'
      · simp [h1]
      · simp [h1, ih]

theorem hasKey_insertF (d : Dict) (k k' : String) (v : Value)
    (h : d.hasKey k' = true) : (d.insertF k v).hasKey k' = true := by
  by_cases hk : k' = k
  · subst hk
    simp [Dict.hasKey, lookupF_insertF_self]
  · simpa [Dict.hasKey, lookupF_insertF_ne d k k' v hk] using h

theorem applySets_suspended (ty : ObjType) (t : Transport)
    (sets : List (String × Value)) :
    ∀ st : FOState, st.suspended = true →
      (applySets ty t st sets).log = [] ∧
      (applySets ty t st sets).err = none ∧
      (applySets ty t st sets).st.suspended = true ∧
      (applySets ty t st sets).st.d = insertAll st.d sets := by
  induction sets with
  | nil => intro st h; exact ⟨rfl, rfl, h, rfl⟩
  | cons kv rest ih =>
    intro st h
    obtain ⟨k, v⟩ := kv
    have hset : FO.set ty t st k v =
        ⟨[], ⟨st.d.insertF k v, st.suspended,
          st.has_changes ||
            decide (¬ st.d.hasKey k = true ∨ st.d.lookupF k ≠ some v)⟩,
         none⟩ := by
      unfold FO.set
      simp [h]
    have hmid := ih ⟨st.d.insertF k v, st.suspended,
      st.has_changes ||
        decide (¬ st.d.hasKey k = true ∨ st.d.lookupF k ≠ some v)⟩ h
    simp only [applySets, hset]
    exact ⟨by simpa using hmid.1, hmid.2.1, hmid.2.2.1,
      by simpa [insertAll] using hmid.2.2.2⟩

theorem commit_spec (ty : ObjType) (t : Transport) (st : FOState)
    (changes : Option Dict) (chg : Dict)
    (hchg : chg = (match changes with
      | none => stateOf ty st.d
      | some c => if c.isEmpty then stateOf ty st.d else c))
    (hp : (ty.putEp.urlParams.all fun p => st.d.hasKey p) = true) :
    FO.commit ty t st changes =
      (match t ⟨ty.putEp, some chg⟩ with
      | Except.ok resp =>
        ⟨[⟨ty.putEp, some chg⟩],
         { st with d := st.d.updateF resp, has_changes := false }, none⟩
      | Except.error e => ⟨[⟨ty.putEp, some chg⟩], st, some e⟩) := by
  have hany : (ty.putEp.urlParams.any fun p => !(st.d.hasKey p)) = false := by
    rw [List.any_eq_false]
    intro p hpm
    simp [List.all_eq_true.mp hp p hpm]
  subst hchg
  unfold FO.commit FO.request rawRequest
  simp only [hany, Bool.and_false, Bool.false_eq_true, if_false, hp, if_true]
  cases t ⟨ty.putEp, some (match changes with
    | none => stateOf ty st.d
    | some c => if c.isEmpty then stateOf ty st.d else c)⟩ <;> rfl

theorem resume_dirty (ty : ObjType) (t : Transport) (st : FOState)
    (h : st.has_changes = true) :
    FO.resume ty t st = FO.commit ty t { st with suspended := false } none := by
  unfold FO.resume
  simp [h]

theorem resume_clean (ty : ObjType) (t : Transport) (st : FOState)
    (h : st.has_changes = false) :
    FO.resume ty t st = ⟨[], { st with suspended := false }, none⟩ := by
  unfold FO.resume
  simp [h]

theorem set_spec_changed (ty : ObjType) (t : Transport) (st : FOState)
    (key : String) (v : Value) (hs : st.suspended = false)
    (hch : st.d.lookupF key ≠ some v) :
    FO.set ty t st key v =
      (if ty.commitAllFields then
        FO.commit ty t ⟨st.d.insertF key v, false, true⟩ none
      else
        FO.commit ty t ⟨st.d.insertF key v, false, true⟩ (some [(key, v)])) := by
  unfold FO.set
  have hdec : decide (¬ st.d.hasKey key = true ∨ st.d.lookupF key ≠ some v) =
      true := by simp [hch]
  simp only [hdec, Bool.or_true, hs, Bool.not_false, Bool.and_self, if_true]
  by_cases hcf : ty.commitAllFields <;> simp [hcf]

theorem set_spec_unchanged (ty : ObjType) (t : Transport) (st : FOState)
    (key : String) (v : Value)
    (hch : st.d.lookupF key = some v) (hd : st.has_changes = false) :
    FO.set ty t st key v = ⟨[], { st with d := st.d.insertF key v }, none⟩ := by
  unfold FO.set
  have hk : st.d.hasKey key = true := by simp [Dict.hasKey, hch]
  simp [hk, hch, hd]

theorem filterMap_keys (d : Dict) :
    ∀ l : List String, (∀ w ∈ l, d.hasKey w = true) →
      (l.filterMap (fun k => (d.lookupF k).map (fun v => (k, v)))).map
        Prod.fst = l := by
  intro l
  induction l with
  | nil => intro _; rfl
  | cons w ws ih =>
    intro hall
    have hw := hall w (by simp)
    obtain ⟨v, hv⟩ :=
      Option.isSome_iff_exists.mp (by simpa [Dict.hasKey] using hw)
    simp only [List.filterMap_cons, hv, Option.map_some', List.map_cons]
    exact congrArg (w :: ·) (ih fun x hx => hall x (by simp [hx]))

theorem get_state_keys (ty : ObjType) (d : Dict)
    (hall : ∀ w ∈ ty.writable, d.hasKey w = true) :
    (FO.get_state ty d).map Prod.fst = ty.writable :=
  filterMap_keys d ty.writable hall

theorem resume_after_suspend (ty : ObjType) (t : Transport) (st : FOState)
    (hp : (ty.putEp.urlParams.all fun p => st.d.hasKey p) = true) :
    (FO.resume ty t st).st.suspended = false ∧
    (st.has_changes = true →
      (FO.resume ty t st).log = [⟨ty.putEp, some (stateOf ty st.d)⟩]) ∧
    (st.has_changes = false → (FO.resume ty t st).log = []) := by
  by_cases hdirty : st.has_changes = true
  · rw [resume_dirty ty t st hdirty]
    rw [commit_spec ty t { st with suspended := false } none
      (stateOf ty st.d) rfl hp]
    cases t ⟨ty.putEp, some (stateOf ty st.d)⟩ with
    | ok resp =>
      exact ⟨rfl, fun _ => rfl, fun hc => absurd hdirty (by simp [hc])⟩
    | error e =>
      exact ⟨rfl, fun _ => rfl, fun hc => absurd hdirty (by simp [hc])⟩
  · have hc : st.has_changes = false := by simpa using hdirty
    rw [resume_clean ty t st hc]
    exact ⟨rfl, fun hh => absurd hh hdirty, fun _ => rfl⟩

theorem set_spec_commits (ty : ObjType) (t : Transport) (st : FOState)
    (key : String) (v : Value) (hs : st.suspended = false)
    (hc1 : (st.has_changes ||
      decide (¬ st.d.hasKey key = true ∨ st.d.lookupF key ≠ some v)) = true) :
    FO.set ty t st key v =
      (if ty.commitAllFields then
        FO.commit ty t ⟨st.d.insertF key v, false, true⟩ none
      else
        FO.commit ty t ⟨st.d.insertF key v, false, true⟩ (some [(key, v)])) := by
  unfold FO.set
  simp only [hc1, hs, Bool.not_false, Bool.and_self, if_true]
  by_cases hcf : ty.commitAllFields <;> simp [hcf]

theorem set_spec_nocommit (ty : ObjType) (t : Transport) (st : FOState)
    (key : String) (v : Value)
    (hc1 : (st.has_changes ||
      decide (¬ st.d.hasKey key = true ∨ st.d.lookupF key ≠ some v)) = false) :
    FO.set ty t st key v =
      ⟨[], ⟨st.d.insertF key v, st.suspended, false⟩, none⟩ := by
  obtain ⟨h1, h2⟩ := Bool.or_eq_false_iff.mp hc1
  have h3 : st.d.lookupF key = some v := by
    by_contra hcc
    simp [hcc] at h2
  have h4 : st.d.hasKey key = true := by simp [Dict.hasKey, h3]
  unfold FO.set
  simp [h1, h3, h4]

theorem set_changed_outcome (ty : ObjType) (t : Transport) (st : FOState)
    (key : String) (v : Value)
    (hs : st.suspended = false)
    (hch : st.d.lookupF key ≠ some v)
    (hp : (ty.putEp.urlParams.all fun p =>
      (st.d.insertF key v).hasKey p) = true) :
    FO.set ty t st key v =
      (match t ⟨ty.putEp, some (if ty.commitAllFields
          then stateOf ty (st.d.insertF key v) else [(key, v)])⟩ with
      | Except.ok resp =>
        ⟨[⟨ty.putEp, some (if ty.commitAllFields
            then stateOf ty (st.d.insertF key v) else [(key, v)])⟩],
         ⟨(st.d.insertF key v).updateF resp, false, false⟩, none⟩
      | Except.error e =>
        ⟨[⟨ty.putEp, some (if ty.commitAllFields
            then stateOf ty (st.d.insertF key v) else [(key, v)])⟩],
         ⟨st.d.insertF key v, false, true⟩, some e⟩) := by
  rw [set_spec_changed ty t st key v hs hch]
  by_cases hcf : ty.commitAllFields
  · rw [if_pos hcf]
    rw [commit_spec ty t ⟨st.d.insertF key v, false, true⟩ none
      (stateOf ty (st.d.insertF key v)) rfl hp]
    simp [hcf]
  · rw [if_neg hcf]
    rw [commit_spec ty t ⟨st.d.insertF key v, false, true⟩ (some [(key, v)])
      [(key, v)] (by simp) hp]
    simp [hcf]

/-- A minimal concrete entity type for witness runs: two writable fields
`a`, `b`, endpoints without url placeholders, single-field commits. -/
def tyEx : ObjType :=
  ⟨["a", "b"], false, ⟨Method.GET, [], none⟩, ⟨Method.PUT, [], none⟩, false⟩

/-- A concrete starting state with both writable fields cached, not
suspended, not dirty. -/
def stEx : FOState :=
  ⟨[("a", Value.vStr "1"), ("b", Value.vStr "2")], false, false⟩

/-- A transport whose every response is the empty mapping. -/
def tOk : Transport := fun _ => Except.ok []

/-- A transport that fails every request with an HTTP error. -/
def tFail : Transport := fun _ => Except.error PErr.httpError

/-- Claim C1, counterexample: with `commit_all_fields` false, a single
`set` of field `a` between `suspend()` and `resume()` produces one write
request whose body is the full writable-field snapshot — it also carries
the unchanged field `b` — not only the changed field as the claim states. -/
theorem c1_counterexample :
    tyEx.commitAllFields = false ∧
    (runSuspendSetsResume tyEx tOk stEx [("a", Value.vStr "3")]).log =
      [⟨tyEx.putEp, some [("a", Value.vStr "3"), ("b", Value.vStr "2")]⟩] ∧
    ¬ (runSuspendSetsResume tyEx tOk stEx [("a", Value.vStr "3")]).log =
      [⟨tyEx.putEp, some [("a", Value.vStr "3")]⟩] := by
  decide

/-- Claim C1 (amended): for every remote object and every sequence of
`set` calls between `suspend()` and `resume()`, the sets issue no
requests, and `resume()` issues exactly one write request — and only when
the dirty flag is set; that request contains the full writable-field
snapshot of the accumulated state regardless of `commitAllFields`. -/
theorem c1_batching_full_snapshot (ty : ObjType) (t : Transport)
    (st0 : FOState) (sets : List (String × Value))
    (hp : (ty.putEp.urlParams.all fun p =>
      (insertAll st0.d sets).hasKey p) = true) :
    (applySets ty t (FO.suspend st0) sets).log = [] ∧
    ((applySets ty t (FO.suspend st0) sets).st.has_changes = true →
      (runSuspendSetsResume ty t st0 sets).log =
        [⟨ty.putEp, some (stateOf ty (insertAll st0.d sets))⟩]) ∧
    ((applySets ty t (FO.suspend st0) sets).st.has_changes = false →
      (runSuspendSetsResume ty t st0 sets).log = []) := by
  obtain ⟨hlog, herr, hsus, hd⟩ :=
    applySets_suspended ty t sets (FO.suspend st0) rfl
  have hd' : (applySets ty t (FO.suspend st0) sets).st.d =
      insertAll st0.d sets := hd
  have hp' : (ty.putEp.urlParams.all fun p =>
      (applySets ty t (FO.suspend st0) sets).st.d.hasKey p) = true := by
    rw [hd']; exact hp
  obtain ⟨hrs, hrd, hrc⟩ := resume_after_suspend ty t _ hp'
  refine ⟨hlog, ?_, ?_⟩
  · intro hdirty
    simp only [runSuspendSetsResume, herr]
    rw [hlog, hrd hdirty, hd']
    simp
  · intro hclean
    simp only [runSuspendSetsResume, herr]
    rw [hlog, hrc hclean]
    simp

/-- Witness for `c1_batching_full_snapshot`: a concrete suspended batch of
two sets commits once, with the full snapshot. -/
theorem c1_batching_full_snapshot_witness :
    (runSuspendSetsResume tyEx tOk stEx
      [("a", Value.vStr "3"), ("b", Value.vStr "9")]).log =
      [⟨tyEx.putEp, some [("a", Value.vStr "3"), ("b", Value.vStr "9")]⟩] := by
  have h := c1_batching_full_snapshot tyEx tOk stEx
    [("a", Value.vStr "3"), ("b", Value.vStr "9")] (by decide)
  rw [h.2.1 (by decide)]
  decide

/-- Claim C2: a `set` on a non-suspended object stores the value in the
cache and, when it differs from the cached value (absence counts as
differing), marks the object dirty and commits immediately — a
single-field partial write when `commitAllFields` is false, a full-state
write of every writable field otherwise; when the value equals the cached
value and the object was clean, no request is issued and the object stays
clean. -/
theorem c2_set_immediate_commit (ty : ObjType) (t : Transport)
    (st : FOState) (key : String) (v : Value)
    (hs : st.suspended = false)
    (hp : (ty.putEp.urlParams.all fun p =>
      (st.d.insertF key v).hasKey p) = true) :
    (st.d.lookupF key ≠ some v →
      (FO.set ty t st key v).log =
        [⟨ty.putEp, some (if ty.commitAllFields
          then stateOf ty (st.d.insertF key v) else [(key, v)])⟩]) ∧
    (st.d.lookupF key = some v → st.has_changes = false →
      FO.set ty t st key v = ⟨[], { st with d := st.d.insertF key v }, none⟩) ∧
    ((FO.set ty t st key v).err.isSome = true →
      (FO.set ty t st key v).st.d.lookupF key = some v ∧
      (FO.set ty t st key v).st.has_changes = true) ∧
    ((∀ w ∈ ty.writable, st.d.hasKey w = true) → ty.permOverlay = false →
      (stateOf ty (st.d.insertF key v)).map Prod.fst = ty.writable) := by
  refine ⟨?_, ?_, ?_, ?_⟩
  · intro hch
    rw [set_changed_outcome ty t st key v hs hch hp]
    cases t ⟨ty.putEp, some (if ty.commitAllFields
      then stateOf ty (st.d.insertF key v) else [(key, v)])⟩ <;> rfl
  · intro hch hcl
    exact set_spec_unchanged ty t st key v hch hcl
  · intro herr
    by_cases hc1 : (st.has_changes ||
        decide (¬ st.d.hasKey key = true ∨ st.d.lookupF key ≠ some v)) = true
    · rw [set_spec_commits ty t st key v hs hc1] at herr ⊢
      by_cases hcf : ty.commitAllFields
      · rw [if_pos hcf] at herr ⊢
        rw [commit_spec ty t ⟨st.d.insertF key v, false, true⟩ none
          (stateOf ty (st.d.insertF key v)) rfl hp] at herr ⊢
        cases ht : t ⟨ty.putEp, some (stateOf ty (st.d.insertF key v))⟩ with
        | ok resp => rw [ht] at herr; simp at herr
        | error e => exact ⟨lookupF_insertF_self st.d key v, rfl⟩
      · rw [if_neg hcf] at herr ⊢
        rw [commit_spec ty t ⟨st.d.insertF key v, false, true⟩
          (some [(key, v)]) [(key, v)] (by simp) hp] at herr ⊢
        cases ht : t ⟨ty.putEp, some [(key, v)]⟩ with
        | ok resp => rw [ht] at herr; simp at herr
        | error e => exact ⟨lookupF_insertF_self st.d key v, rfl⟩
    · have hc0 : (st.has_changes ||
          decide (¬ st.d.hasKey key = true ∨ st.d.lookupF key ≠ some v)) =
          false := by simpa using hc1
      rw [set_spec_nocommit ty t st key v hc0] at herr
      simp at herr
  · intro hall hpo
    rw [stateOf, if_neg (by simp [hpo])]
    exact get_state_keys ty (st.d.insertF key v)
      (fun w hw => hasKey_insertF st.d key w v (hall w hw))

/-- Witness for `c2_set_immediate_commit`: a concrete changed `set` issues
exactly the single-field partial write. -/
theorem c2_set_immediate_commit_witness :
    (FO.set tyEx tOk stEx "a" (Value.vStr "3")).log =
      [⟨tyEx.putEp, some [("a", Value.vStr "3")]⟩] := by
  have h := c2_set_immediate_commit tyEx tOk stEx "a" (Value.vStr "3")
    (by decide) (by decide)
  rw [h.1 (by decide)]
  decide

/-- Claim C4: exiting a `with` scope runs `resume()` on every exit path —
in particular when the body raises after only `k` of its `set` calls ran
(the exception still propagates afterwards); the single committed write,
issued iff the accumulated state is dirty, reflects exactly the sets that
actually ran. -/
theorem c4_scope_resume_on_error (ty : ObjType) (t : Transport)
    (st0 : FOState) (sets : List (String × Value)) (k : Nat)
    (hp : (ty.putEp.urlParams.all fun p =>
      (insertAll st0.d (sets.take k)).hasKey p) = true) :
    (runWith ty t st0 sets (some k)).2 = true ∧
    (runWith ty t st0 sets (some k)).1.st.suspended = false ∧
    ((applySets ty t (FO.suspend st0) (sets.take k)).st.has_changes = true →
      (runWith ty t st0 sets (some k)).1.log =
        [⟨ty.putEp, some (stateOf ty (insertAll st0.d (sets.take k)))⟩]) ∧
    ((applySets ty t (FO.suspend st0) (sets.take k)).st.has_changes = false →
      (runWith ty t st0 sets (some k)).1.log = []) := by
  obtain ⟨hlog, herr, hsus, hd⟩ :=
    applySets_suspended ty t (sets.take k) (FO.suspend st0) rfl
  have hd' : (applySets ty t (FO.suspend st0) (sets.take k)).st.d =
      insertAll st0.d (sets.take k) := hd
  have hp' : (ty.putEp.urlParams.all fun p =>
      (applySets ty t (FO.suspend st0) (sets.take k)).st.d.hasKey p) =
      true := by
    rw [hd']; exact hp
  obtain ⟨hrs, hrd, hrc⟩ := resume_after_suspend ty t _ hp'
  refine ⟨by simp [runWith], ?_, ?_, ?_⟩
  · simpa [runWith] using hrs
  · intro hdirty
    simp only [runWith]
    rw [hlog, hrd hdirty, hd']
    simp
  · intro hclean
    simp only [runWith]
    rw [hlog, hrc hclean]
    simp

/-- Witness for `c4_scope_resume_on_error`: a body that intended three
sets but raised after two still resumes, and the one write carries exactly
the two sets that ran. -/
theorem c4_scope_resume_on_error_witness :
    (runWith tyEx tOk stEx
      [("a", Value.vStr "3"), ("b", Value.vStr "9"), ("a", Value.vStr "7")]
      (some 2)).2 = true ∧
    (runWith tyEx tOk stEx
      [("a", Value.vStr "3"), ("b", Value.vStr "9"), ("a", Value.vStr "7")]
      (some 2)).1.log =
      [⟨tyEx.putEp, some [("a", Value.vStr "3"), ("b", Value.vStr "9")]⟩] := by
  have h := c4_scope_resume_on_error tyEx tOk stEx
    [("a", Value.vStr "3"), ("b", Value.vStr "9"), ("a", Value.vStr "7")]
    2 (by decide)
  refine ⟨h.1, ?_⟩
  rw [h.2.2.1 (by decide)]
  decide

/-- Claim C5: when the transport fails the commit triggered by a changed
`set`, the dirty flag remains set and the cache still holds the attempted
value; when the transport succeeds, the dirty flag is cleared and the
server response is merged into the cache. -/
theorem c5_failed_commit_state (ty : ObjType) (t : Transport)
    (st : FOState) (key : String) (v : Value)
    (hs : st.suspended = false)
    (hch : st.d.lookupF key ≠ some v)
    (hp : (ty.putEp.urlParams.all fun p =>
      (st.d.insertF key v).hasKey p) = true) :
    (∀ e, t ⟨ty.putEp, some (if ty.commitAllFields
        then stateOf ty (st.d.insertF key v) else [(key, v)])⟩ =
        Except.error e →
      (FO.set ty t st key v).err = some e ∧
      (FO.set ty t st key v).st.has_changes = true ∧
      (FO.set ty t st key v).st.d.lookupF key = some v) ∧
    (∀ resp, t ⟨ty.putEp, some (if ty.commitAllFields
        then stateOf ty (st.d.insertF key v) else [(key, v)])⟩ =
        Except.ok resp →
      (FO.set ty t st key v).err = none ∧
      (FO.set ty t st key v).st.has_changes = false ∧
      (FO.set ty t st key v).st.d = (st.d.insertF key v).updateF resp) := by
  rw [set_changed_outcome ty t st key v hs hch hp]
  constructor
  · intro e ht
    rw [ht]
    exact ⟨rfl, rfl, lookupF_insertF_self st.d key v⟩
  · intro resp ht
    rw [ht]
    exact ⟨rfl, rfl, rfl⟩

/-- Witness for `c5_failed_commit_state`: a failing transport leaves the
object dirty with the attempted value cached. -/
theorem c5_failed_commit_state_witness :
    (FO.set tyEx tFail stEx "a" (Value.vStr "3")).err =
      some PErr.httpError ∧
    (FO.set tyEx tFail stEx "a" (Value.vStr "3")).st.has_changes = true ∧
    (FO.set tyEx tFail stEx "a" (Value.vStr "3")).st.d.lookupF "a" =
      some (Value.vStr "3") :=
  (c5_failed_commit_state tyEx tFail stEx "a" (Value.vStr "3")
    (by decide) (by decide) (by decide)).1 PErr.httpError rfl

theorem mem_pyInsert (l : List Nat) (y x : Nat) :
    x ∈ pyInsert l y ↔ x ∈ l ∨ x = y := by
  unfold pyInsert
  by_cases h : y ∈ l
  · simp only [if_pos h]
    constructor
    · exact Or.inl
    · rintro (hx | rfl)
      · exact hx
      · exact h
  · simp [if_neg h]

theorem mem_pySetL_aux (l : List Nat) :
    ∀ acc x, (x ∈ l.foldl pyInsert acc ↔ x ∈ acc ∨ x ∈ l) := by
  induction l with
  | nil => simp
  | cons y ys ih =>
    intro acc x
    rw [List.foldl_cons, ih, mem_pyInsert, List.mem_cons]
    tauto

theorem mem_pySetL (l : List Nat) (x : Nat) : x ∈ pySetL l ↔ x ∈ l := by
  unfold pySetL
  rw [mem_pySetL_aux]
  simp

theorem nodup_pyInsert (l : List Nat) (y : Nat) (h : l.Nodup) :
    (pyInsert l y).Nodup := by
  unfold pyInsert
  by_cases hy : y ∈ l
  · simpa [hy]
  · simp [List.nodup_append, h, hy]

theorem nodup_pySetL_aux (l : List Nat) :
    ∀ acc : List Nat, acc.Nodup → (l.foldl pyInsert acc).Nodup := by
  induction l with
  | nil => intro acc h; simpa
  | cons y ys ih =>
    intro acc h
    rw [List.foldl_cons]
    exact ih _ (nodup_pyInsert acc y h)

theorem nodup_pySetL (l : List Nat) : (pySetL l).Nodup :=
  nodup_pySetL_aux l [] List.nodup_nil

theorem mem_pyDiff (a b : List Nat) (x : Nat) :
    x ∈ pyDiff a b ↔ x ∈ a ∧ x ∉ b := by
  simp [pyDiff]

theorem nodup_pyDiff (a b : List Nat) (h : a.Nodup) : (pyDiff a b).Nodup :=
  List.Nodup.filter _ h

/-- A concrete member-list oracle for witness runs. -/
def oEx : MLOracle := ⟨fun _ => ([100, 101, 102], 7), 7, [1, 2, 3]⟩

/-- Claim C3, the failing run: with current members {1, 2, 3} cached and
desired {2, 3, 4}, the reconciler's `toAdd − toRemove` is the non-empty
set {4} of `User` objects, so `",".join` over it raises `TypeError`
before any request: the claimed batched add and per-element removes are
never issued and the cache keeps its old value. (`UserList.add` performs
the `username` conversion this join needed, so the claimed behaviour is
the evident intent and the join is a slip.) -/
theorem c3_reconciler_crash :
    (UL.replace_all oEx ⟨some [1, 2, 3], 0, none⟩ [2, 3, 4]).1 = [] ∧
    (UL.replace_all oEx ⟨some [1, 2, 3], 0, none⟩ [2, 3, 4]).2.2 =
      some PErr.typeError ∧
    (UL.replace_all oEx ⟨some [1, 2, 3], 0, none⟩ [2, 3, 4]).2.1.list =
      some [1, 2, 3] := by
  decide

/-- Claim C6: `__getitem__(i)` with `i` inside the cached window issues no
request and returns the element at position `i - offset`; with `i` outside
the window (or no nonempty window cached) it issues exactly one refetch at
`{'offset': i}`, replacing the window, its offset and the count. -/
theorem c6_window_access (o : MLOracle) (st : MLState) (i : Nat) :
    (∀ l, st.list = some l → l.isEmpty = false → st.offset ≤ i →
      i < l.length + st.offset →
      ML.getitem o st i = ([], st, l.get? (i - st.offset))) ∧
    ((∀ l, st.list = some l →
        (l.isEmpty = true ∨ i < st.offset ∨ l.length + st.offset ≤ i)) →
      ML.getitem o st i =
        ([MLReq.fetchAt i],
         ⟨some (o.window i).1, i, some (o.window i).2⟩,
         (o.window i).1.get? 0)) := by
  constructor
  · intro l hl hne h1 h2
    unfold ML.getitem
    rw [hl]
    have hcond : (l.isEmpty || decide (i < st.offset) ||
        decide (i ≥ l.length + st.offset)) = false := by
      simp only [hne, Bool.false_or, Bool.or_eq_false_iff,
        decide_eq_false_iff_not]
      omega
    simp [hcond]
  · intro hout
    unfold ML.getitem
    cases hl : st.list with
    | none => simp
    | some l =>
      have hcond : (l.isEmpty || decide (i < st.offset) ||
          decide (i ≥ l.length + st.offset)) = true := by
        rcases hout l hl with h | h | h
        · simp [h]
        · simp [h]
        · simp [h]
      simp [hcond]

/-- Witness for `c6_window_access`: an in-window access answers from the
cache; index 50 against a window `[0, 2)` refetches at offset 50. -/
theorem c6_window_access_witness :
    ML.getitem oEx ⟨some [10, 11], 0, some 2⟩ 1 =
      ([], ⟨some [10, 11], 0, some 2⟩, some 11) ∧
    ML.getitem oEx ⟨some [10, 11], 0, some 2⟩ 50 =
      ([MLReq.fetchAt 50], ⟨some [100, 101, 102], 50, some 7⟩, some 100) := by
  constructor
  · have h := (c6_window_access oEx ⟨some [10, 11], 0, some 2⟩ 1).1
      [10, 11] rfl (by decide) (by decide) (by decide)
    rw [h]
    decide
  · have h := (c6_window_access oEx ⟨some [10, 11], 0, some 2⟩ 50).2
      (by intro l hl; injection hl with h2; subst h2; right; right; decide)
    rw [h]
    decide

/-- Claim C7, counterexample: `replace_all` does not invalidate the
cached window. With members {1, 2, 3} cached and desired {2, 3} (nothing
to add, so the join does not raise), the run completes and sets `_list`
directly to the desired members; the next indexed access issues no
refetch, contrary to the claim that every mutating operation
(add/remove/replace) forces a refetch on next access. -/
theorem c7_counterexample :
    (UL.replace_all oEx ⟨some [1, 2, 3], 0, some 3⟩ [2, 3]).2.1.list =
      some [2, 3] ∧
    ¬ (UL.replace_all oEx ⟨some [1, 2, 3], 0, some 3⟩ [2, 3]).2.1.list =
      none ∧
    (ML.getitem oEx
      (UL.replace_all oEx ⟨some [1, 2, 3], 0, some 3⟩ [2, 3]).2.1 0).1 =
      [] := by
  decide

/-- Claim C7 (amended): `__len__` issues one `{'limit': 0}` request solely
to read the server total when the count was never fetched, caching it,
and otherwise answers from the cache with no request; `add` and `remove`
invalidate the cached window, so the next indexed access refetches;
`replace_all` never invalidates the window: with a cached current list,
when the reconciler finds members to add it raises `TypeError` before
issuing any request and leaves the cached window unchanged, and when
there is nothing to add it sets the cached window directly to the
desired member list. -/
theorem c7_len_and_invalidation (o : MLOracle) (st : MLState) :
    (st.count = none → ML.len o st =
      ([MLReq.fetchLimit0], { st with count := some o.total0 }, o.total0)) ∧
    (∀ c, st.count = some c → ML.len o st = ([], st, c)) ∧
    (∀ ms, (ML.add st ms).2.list = none) ∧
    (∀ ms, (ML.remove st ms).2.list = none) ∧
    (∀ i, (ML.getitem o { st with list := none } i).1 =
      [MLReq.fetchAt i]) ∧
    (∀ current ds, st.list = some current → current.isEmpty = false →
      (pyDiff (pySetL ds) (pySetL current)).isEmpty = true →
      (UL.replace_all o st ds).2.1.list = some ds ∧
      (UL.replace_all o st ds).2.2 = none) ∧
    (∀ current ds, st.list = some current → current.isEmpty = false →
      (pyDiff (pySetL ds) (pySetL current)).isEmpty = false →
      (UL.replace_all o st ds).1 = [] ∧
      (UL.replace_all o st ds).2.1.list = some current ∧
      (UL.replace_all o st ds).2.2 = some PErr.typeError) := by
  refine ⟨?_, ?_, fun _ => rfl, fun _ => rfl, ?_, ?_, ?_⟩
  · intro hc
    unfold ML.len
    rw [hc]
  · intro c hc
    unfold ML.len
    rw [hc]
  · intro i
    unfold ML.getitem
    simp
  · intro current ds hcur hne hadd
    unfold UL.replace_all
    rw [hcur]
    simp [hne, hadd]
  · intro current ds hcur hne hadd
    unfold UL.replace_all
    rw [hcur]
    simp [hne, hadd, hcur]

/-- Witness for `c7_len_and_invalidation`: a concrete never-counted list
fetches the total once; a concrete `add` clears the cached window; a
concrete replace with nothing to add sets the cache to the desired list;
a concrete replace with something to add raises instead. -/
theorem c7_len_and_invalidation_witness :
    ML.len oEx ⟨some [1, 2], 0, none⟩ =
      ([MLReq.fetchLimit0], ⟨some [1, 2], 0, some 7⟩, 7) ∧
    (ML.add ⟨some [1, 2], 0, some 2⟩ [5]).2.list = none ∧
    (UL.replace_all oEx ⟨some [1, 2, 3], 0, some 3⟩ [2, 3]).2.1.list =
      some [2, 3] ∧
    (UL.replace_all oEx ⟨some [1, 2, 3], 0, some 3⟩ [2, 3, 4]).2.2 =
      some PErr.typeError := by
  refine ⟨?_, ?_, ?_, ?_⟩
  · have h1 := (c7_len_and_invalidation oEx ⟨some [1, 2], 0, none⟩).1 rfl
    rw [h1]
    rfl
  · exact (c7_len_and_invalidation oEx ⟨some [1, 2], 0, some 2⟩).2.2.1 [5]
  · exact ((c7_len_and_invalidation oEx
      ⟨some [1, 2, 3], 0, some 3⟩).2.2.2.2.2.1
      [1, 2, 3] [2, 3] rfl (by decide) (by decide)).1
  · exact ((c7_len_and_invalidation oEx
      ⟨some [1, 2, 3], 0, some 3⟩).2.2.2.2.2.2
      [1, 2, 3] [2, 3, 4] rfl (by decide) (by decide)).2.2

/-- Claim C8: a schema-routed write to a field whose schema entry has
`writable = False` fails locally — `AddProperties` created that property
with a getter only (discourse.py:198), so Python raises the no-setter
`AttributeError` (the error the spec names `NotWritable`) before any
code of the object runs — with zero requests issued for any transport,
and with the field cache and the dirty flag left unchanged. -/
theorem c8_not_writable (props : List PropSpec) (ty : ObjType)
    (t : Transport) (st : FOState) (name : String) (v : Value) (p : PropSpec)
    (hf : effectiveProp props name = some p) (hw : p.writable = false) :
    setProp props ty t st name v = ⟨[], st, some PErr.attributeError⟩ ∧
    (setProp props ty t st name v).log = [] ∧
    (setProp props ty t st name v).st.d = st.d ∧
    (setProp props ty t st name v).st.has_changes = st.has_changes ∧
    (setProp props ty t st name v).err = some PErr.attributeError := by
  have h : setProp props ty t st name v =
      ⟨[], st, some PErr.attributeError⟩ := by
    unfold setProp
    rw [hf]
    simp [hw]
  exact ⟨h, by rw [h], by rw [h], by rw [h], by rw [h]⟩

/-- Witness for `c8_not_writable`: writing the read-only `id` property of
a `User` raises, issues no request, and leaves cache and dirty flag
untouched. -/
theorem c8_not_writable_witness :
    setProp userProps userType tOk stEx "id" (Value.vInt 5) =
      ⟨[], stEx, some PErr.attributeError⟩ ∧
    (setProp userProps userType tOk stEx "id" (Value.vInt 5)).log = [] ∧
    (setProp userProps userType tOk stEx "id" (Value.vInt 5)).st.d =
      stEx.d ∧
    (setProp userProps userType tOk stEx "id"
      (Value.vInt 5)).st.has_changes = stEx.has_changes ∧
    (setProp userProps userType tOk stEx "id" (Value.vInt 5)).err =
      some PErr.attributeError :=
  c8_not_writable userProps userType tOk stEx "id" (Value.vInt 5)
    ⟨"id", false⟩ (by decide) rfl

theorem find?_updPerm (gp : List (String × Int)) (key : String)
    (value : Int) (h : (gp.find? (fun x => x.1 = key)).isSome = true) :
    ∃ k0, (updPerm gp key value).find? (fun x => x.1 = key) =
      some (k0, value) := by
  induction gp with
  | nil => simp [List.find?] at h
  | cons x xs ih =>
    by_cases hx : x.1 = key
    · refine ⟨x.1, ?_⟩
      unfold updPerm
      rw [if_pos hx]
      exact List.find?_cons_of_pos _ (by simpa using hx)
    · unfold updPerm
      rw [if_neg hx]
      rw [List.find?_cons_of_neg _ (by simpa using hx)] at h
      obtain ⟨k0, hk⟩ := ih h
      exact ⟨k0, by
        rw [List.find?_cons_of_neg _ (by simpa using hx)]
        exact hk⟩

theorem find?_append_none (p : (String × Int) → Bool)
    (l l' : List (String × Int)) (h : l.find? p = none) :
    (l ++ l').find? p = l'.find? p := by
  induction l with
  | nil => rfl
  | cons x xs ih =>
    by_cases hx : p x
    · rw [List.find?_cons_of_pos _ hx] at h
      cases h
    · rw [List.cons_append, List.find?_cons_of_neg _ hx]
      rw [List.find?_cons_of_neg _ hx] at h
      exact ih h

/-- Claim C10: on a suspended `Category` whose `group_permissions`
sub-list is cached, `set_permission` mutates only that cached sub-list,
never sets the dirty flag, and issues no request; a subsequent `resume()`
therefore issues no write request, so the permission change survives only
in the local cache. -/
theorem c10_set_permission_suspended (ty : ObjType) (t : Transport)
    (st : FOState) (key : String) (value : Int) (gp : List (String × Int))
    (hs : st.suspended = true)
    (hgp : st.d.lookupF "group_permissions" = some (Value.vPerms gp))
    (hd : st.has_changes = false) :
    (Cat.set_permission ty t st key value).log = [] ∧
    (Cat.set_permission ty t st key value).err = none ∧
    (Cat.set_permission ty t st key value).st.has_changes = false ∧
    (Cat.set_permission ty t st key value).st.suspended = true ∧
    Cat.get_permission (Cat.set_permission ty t st key value).st key =
      value ∧
    (∀ k, k ≠ "group_permissions" →
      (Cat.set_permission ty t st key value).st.d.lookupF k =
        st.d.lookupF k) ∧
    (FO.resume ty t (Cat.set_permission ty t st key value).st).log = [] := by
  have hk : st.d.hasKey "group_permissions" = true := by
    simp [Dict.hasKey, hgp]
  have hget : FO.get ty t st "group_permissions" =
      ([], st, Except.ok (Value.vPerms gp)) := by
    unfold FO.get
    simp [hk, hgp]
  have hsp : Cat.set_permission ty t st key value =
      ⟨[],
       { st with
          d := st.d.insertF "group_permissions"
                 (Value.vPerms (if (gp.find? (fun x => x.1 = key)).isSome
                   then updPerm gp key value else gp ++ [(key, value)])) },
       none⟩ := by
    unfold Cat.set_permission
    rw [hget]
    simp [hs]
  rw [hsp]
  refine ⟨rfl, rfl, hd, hs, ?_, ?_, ?_⟩
  · unfold Cat.get_permission
    rw [lookupF_insertF_self]
    by_cases hfind : (gp.find? (fun x => x.1 = key)).isSome = true
    · rw [if_pos hfind]
      obtain ⟨k0, hk0⟩ := find?_updPerm gp key value hfind
      simp [hk0]
    · rw [if_neg hfind]
      have hnone : gp.find? (fun x => x.1 = key) = none :=
        Option.not_isSome_iff_eq_none.mp hfind
      simp [find?_append_none _ gp [(key, value)] hnone, List.find?]
  · intro k hk2
    exact lookupF_insertF_ne st.d "group_permissions" k _ hk2
  · unfold FO.resume
    simp [hd]

/-- A concrete suspended `Category` state with a cached
`group_permissions` sub-list. -/
def stCatEx : FOState :=
  ⟨[("id", Value.vInt 3),
    ("group_permissions", Value.vPerms [("everyone", 1)])], true, false⟩

/-- Witness for `c10_set_permission_suspended`: granting a new group a
permission while suspended issues no request and the change is visible
only through the cache. -/
theorem c10_set_permission_suspended_witness :
    (Cat.set_permission categoryType tOk stCatEx "staff" 3).log = [] ∧
    Cat.get_permission (Cat.set_permission categoryType tOk stCatEx
      "staff" 3).st "staff" = 3 ∧
    (FO.resume categoryType tOk (Cat.set_permission categoryType tOk
      stCatEx "staff" 3).st).log = [] := by
  have h := c10_set_permission_suspended categoryType tOk stCatEx "staff" 3
    [("everyone", 1)] rfl (by decide) rfl
  exact ⟨h.1, h.2.2.2.2.1, h.2.2.2.2.2.2⟩

theorem toNat_digitChar (d : Nat) (h : d ≤ 9) :
    (digitChar d).toNat = 48 + d := by
  interval_cases d <;> rfl

theorem isDigitC_digitChar (d : Nat) (h : d ≤ 9) :
    isDigitC (digitChar d) = true := by
  interval_cases d <;> rfl

theorem expectC_cons (c : Char) (rest : List Char) :
    expectC c (c :: rest) = some rest := by
  simp [expectC]

theorem parseY_pad (y : Nat) (h : y ≤ 9999) (rest : List Char) :
    parseY (pad4 y ++ rest) = some (y, rest) := by
  have h1 : y / 1000 % 10 ≤ 9 := Nat.le_of_lt_succ (Nat.mod_lt _ (by norm_num))
  have h2 : y / 100 % 10 ≤ 9 := Nat.le_of_lt_succ (Nat.mod_lt _ (by norm_num))
  have h3 : y / 10 % 10 ≤ 9 := Nat.le_of_lt_succ (Nat.mod_lt _ (by norm_num))
  have h4 : y % 10 ≤ 9 := Nat.le_of_lt_succ (Nat.mod_lt _ (by norm_num))
  simp only [pad4, List.cons_append, List.nil_append, parseY,
    isDigitC_digitChar _ h1, isDigitC_digitChar _ h2,
    isDigitC_digitChar _ h3, isDigitC_digitChar _ h4,
    Bool.and_self, if_true,
    toNat_digitChar _ h1, toNat_digitChar _ h2,
    toNat_digitChar _ h3, toNat_digitChar _ h4,
    Option.some.injEq, Prod.mk.injEq]
  exact ⟨by omega, trivial⟩

theorem parseMN_pad (m : Nat) (h1 : 1 ≤ m) (h2 : m ≤ 12)
    (rest : List Char) : parseMN (pad2 m ++ rest) = some (m, rest) := by
  interval_cases m <;> rfl

theorem parseD_pad (d : Nat) (h1 : 1 ≤ d) (h2 : d ≤ 31)
    (rest : List Char) : parseD (pad2 d ++ rest) = some (d, rest) := by
  interval_cases d <;> rfl

theorem parseH_pad (h : Nat) (h2 : h ≤ 23) (rest : List Char) :
    parseH (pad2 h ++ rest) = some (h, rest) := by
  interval_cases h <;> rfl

theorem parseMin_pad (mi : Nat) (h2 : mi ≤ 59) (rest : List Char) :
    parseMin (pad2 mi ++ rest) = some (mi, rest) := by
  interval_cases mi <;> rfl

theorem parseS_pad (s : Nat) (h2 : s ≤ 59) (rest : List Char) :
    parseS (pad2 s ++ rest) = some (s, rest) := by
  interval_cases s <;> rfl

theorem parseF_pad6 (us : Nat) (h : us ≤ 999999) (rest : List Char) :
    parseF (pad6 us ++ rest) = some (us, rest) := by
  have h1 : us / 100000 % 10 ≤ 9 :=
    Nat.le_of_lt_succ (Nat.mod_lt _ (by norm_num))
  have h2 : us / 10000 % 10 ≤ 9 :=
    Nat.le_of_lt_succ (Nat.mod_lt _ (by norm_num))
  have h3 : us / 1000 % 10 ≤ 9 :=
    Nat.le_of_lt_succ (Nat.mod_lt _ (by norm_num))
  have h4 : us / 100 % 10 ≤ 9 :=
    Nat.le_of_lt_succ (Nat.mod_lt _ (by norm_num))
  have h5 : us / 10 % 10 ≤ 9 :=
    Nat.le_of_lt_succ (Nat.mod_lt _ (by norm_num))
  have h6 : us % 10 ≤ 9 :=
    Nat.le_of_lt_succ (Nat.mod_lt _ (by norm_num))
  simp only [pad6, List.cons_append, List.nil_append, parseF, takeDigits,
    isDigitC_digitChar _ h1, isDigitC_digitChar _ h2,
    isDigitC_digitChar _ h3, isDigitC_digitChar _ h4,
    isDigitC_digitChar _ h5, isDigitC_digitChar _ h6,
    if_true,
    toNat_digitChar _ h1, toNat_digitChar _ h2,
    toNat_digitChar _ h3, toNat_digitChar _ h4,
    toNat_digitChar _ h5, toNat_digitChar _ h6,
    fracVal, List.foldl, List.length_cons, List.length_nil,
    Option.some.injEq, Prod.mk.injEq]
  exact ⟨by omega, by simp⟩

theorem daysInMonth_le (y mo : Nat) : daysInMonth y mo ≤ 31 := by
  unfold daysInMonth
  split_ifs <;> omega

theorem optBind_some {α β : Type} (a : α) (f : α → Option β) :
    (some a).bind f = f a := rfl

theorem parseTs_canonical (y mo d h mi s us : Nat)
    (hy1 : 1000 ≤ y) (hy2 : y ≤ 9999) (hmo1 : 1 ≤ mo) (hmo2 : mo ≤ 12)
    (hd1 : 1 ≤ d) (hd2 : d ≤ daysInMonth y mo) (hh : h ≤ 23)
    (hmi : mi ≤ 59) (hs2 : s ≤ 59) (hus : us ≤ 999999) :
    parseTs (tsChars ⟨y, mo, d, h, mi, s, us⟩) =
      some ⟨y, mo, d, h, mi, s, us⟩ := by
  have hd31 : d ≤ 31 := le_trans hd2 (daysInMonth_le y mo)
  have hy0 : 1 ≤ y := by omega
  unfold tsChars
  simp only [parseTs, parseY_pad y hy2, optBind_some, expectC_cons,
    parseMN_pad mo hmo1 hmo2, parseD_pad d hd1 hd31, parseH_pad h hh,
    parseMin_pad mi hmi, parseS_pad s hs2, parseF_pad6 us hus]
  simp [hy0, hd2, hs2]

theorem str_to_time_canonical (y mo d h mi s us : Nat)
    (hy1 : 1000 ≤ y) (hy2 : y ≤ 9999) (hmo1 : 1 ≤ mo) (hmo2 : mo ≤ 12)
    (hd1 : 1 ≤ d) (hd2 : d ≤ daysInMonth y mo) (hh : h ≤ 23)
    (hmi : mi ≤ 59) (hs2 : s ≤ 59) (hus : us ≤ 999999) :
    str_to_time (canonicalTs y mo d h mi s us) =
      Except.ok (some ⟨y, mo, d, h, mi, s, us⟩) := by
  have hp := parseTs_canonical y mo d h mi s us hy1 hy2 hmo1 hmo2 hd1 hd2
    hh hmi hs2 hus
  have hne : (tsChars ⟨y, mo, d, h, mi, s, us⟩).isEmpty = false := by
    unfold tsChars pad4
    rfl
  unfold str_to_time canonicalTs
  simp [String.toList, hne, hp]

/-- Claim C9, counterexample: the well-formed timestamp string
`1850-01-02T03:04:05.123456Z` (4-digit year, 2-digit month/day, literal
`T`, time, fractional seconds, literal `Z`) decodes successfully, but
encoding the decoded value raises `ValueError` — Python 2's `strftime`
rejects every year before 1900 — so `encode(decode(s))` is an exception,
not `s`. -/
theorem c9_counterexample :
    str_to_time (canonicalTs 1850 1 2 3 4 5 123456) =
      Except.ok (some ⟨1850, 1, 2, 3, 4, 5, 123456⟩) ∧
    time_to_str (some ⟨1850, 1, 2, 3, 4, 5, 123456⟩) =
      Except.error PErr.valueError :=
  ⟨str_to_time_canonical 1850 1 2 3 4 5 123456 (by norm_num) (by norm_num)
     (by norm_num) (by norm_num) (by norm_num) (by decide) (by norm_num)
     (by norm_num) (by norm_num) (by norm_num), rfl⟩

/-- Claim C9 (amended): for every canonical timestamp string (4-digit
year of at least 1900, zero-padded 2-digit month, day, hour, minute and
second, literal `-`, `T`, `:` and `.` separators, 6-digit
fractional-second field as `strftime("%f")` prints it, trailing literal
`Z`, in-range field values), `encode(decode(s)) = s`; additionally
`decode("") = None` and `encode(None) = None`. Years 1000-1899 decode
but cannot be re-encoded, because Python 2's `strftime` raises for
them. -/
theorem c9_timestamp_roundtrip (y mo d h mi s us : Nat)
    (hy1 : 1900 ≤ y) (hy2 : y ≤ 9999) (hmo1 : 1 ≤ mo) (hmo2 : mo ≤ 12)
    (hd1 : 1 ≤ d) (hd2 : d ≤ daysInMonth y mo) (hh : h ≤ 23)
    (hmi : mi ≤ 59) (hs2 : s ≤ 59) (hus : us ≤ 999999) :
    str_to_time (canonicalTs y mo d h mi s us) =
      Except.ok (some ⟨y, mo, d, h, mi, s, us⟩) ∧
    time_to_str (some ⟨y, mo, d, h, mi, s, us⟩) =
      Except.ok (some (canonicalTs y mo d h mi s us)) ∧
    str_to_time "" = Except.ok none ∧
    time_to_str none = Except.ok none := by
  refine ⟨str_to_time_canonical y mo d h mi s us (by omega) hy2 hmo1 hmo2
    hd1 hd2 hh hmi hs2 hus, ?_, rfl, rfl⟩
  simp only [time_to_str]
  rw [if_neg (by omega)]
  rfl

/-- Witness for `c9_timestamp_roundtrip` at the concrete timestamp
`2021-03-04T05:06:07.123456Z`. -/
theorem c9_timestamp_roundtrip_witness :
    str_to_time (canonicalTs 2021 3 4 5 6 7 123456) =
      Except.ok (some ⟨2021, 3, 4, 5, 6, 7, 123456⟩) ∧
    time_to_str (some ⟨2021, 3, 4, 5, 6, 7, 123456⟩) =
      Except.ok (some (canonicalTs 2021 3 4 5 6 7 123456)) := by
  have h := c9_timestamp_roundtrip 2021 3 4 5 6 7 123456 (by norm_num)
    (by norm_num) (by norm_num) (by norm_num) (by norm_num) (by decide)
    (by norm_num) (by norm_num) (by norm_num) (by norm_num)
  exact ⟨h.1, h.2.1⟩
